import Mathlib

/-!
# Verification of the snapblaster runtime coordination layer

Shallow embedding of the core of the `snapblaster` repository
(`src-tauri/src/model.rs`, `events.rs`, `morph.rs`, `midi/manager.rs`,
`main.rs`) together with proofs about the claims of its specification.

Conventions of the embedding:
* Rust `u8` / `usize` values become `Nat` (all values that matter here stay
  far below any overflow boundary; where a wrap could occur it is modelled
  explicitly).
* Rust `f64` arithmetic is embedded as exact `ℚ` arithmetic where the code
  only adds, multiplies and rounds (`interpolate_values`), and as `ℝ`
  where the code uses transcendental functions (`apply_curve`).
* `f64::round` rounds half away from zero; `rustRound` reproduces that on ℚ.
* The asynchronous morph task (`MorphEngine::run_morph`) is embedded as a
  deterministic trace: the loop body is a state-transition function and a
  whole run is that function folded over the list of (raw, curved) progress
  values observed at the ticks, followed by the finalize step.
* Events published on the bus are accumulated in a list, in publication
  order.
-/

namespace Snapblaster

/-- `events.rs`: the `MorphCurve` enum (with the `pro` feature enabled,
which provides the `Exponential`, `Logarithmic` and `SCurve` variants). -/
inductive MorphCurve where
  | Linear
  | Exponential
  | Logarithmic
  | SCurve
deriving DecidableEq, Repr

/-- `model.rs`: a `Parameter` (a single MIDI CC control). -/
structure Parameter where
  name : String
  description : String
  cc : Nat
deriving DecidableEq, Repr

/-- `model.rs`: a `Snap` (CC values for each parameter, by index). -/
structure Snap where
  name : String
  description : String
  values : List Nat
deriving DecidableEq, Repr

/-- `model.rs`: a `Bank` of snaps. -/
structure Bank where
  name : String
  snaps : List Snap
deriving DecidableEq, Repr

/-- `model.rs`: the `Project` container. -/
structure Project where
  project_name : String
  openai_api_key : Option String
  controller : String
  banks : List Bank
  parameters : List Parameter
deriving DecidableEq, Repr

/-- `model.rs`: an `ActiveMorph` (progress is the embedded `f64`). -/
structure ActiveMorph where
  from_snap : Nat
  to_snap : Nat
  duration_bars : Nat
  progress : ℚ
  from_values : List Nat
  to_values : List Nat
  current_values : List Nat
deriving DecidableEq, Repr

/-- `model.rs` `ProjectState`, extended with the `active_modifier` and
`morph_duration` runtime fields that `midi/manager.rs` and `morph.rs` read
and write on the same shared state (the snapshotted `model.rs` lags behind
those two files; the spec's RuntimeState lists both fields). -/
structure ProjectState where
  project : Project
  current_bank : Nat
  current_snap : Nat
  active_modifier : Option Nat
  morph_duration : Nat
  active_morph : Option ActiveMorph
deriving DecidableEq, Repr

/-- `events.rs`: the bus events the claims mention (payload types embedded;
`f64` progress becomes ℚ).  Constructors not relevant to any claim are
omitted from the embedding because no modelled code path publishes them. -/
inductive Event where
  | PadPressed (pad velocity : Nat)
  | CCValueChanged (param_id value : Nat)
  | SnapSelected (bank snap_id : Nat)
  | BankSelected (bank_id : Nat)
  | MorphInitiated (from_snap to_snap duration_bars : Nat)
      (curve_type : MorphCurve) (quantize : Bool)
  | MorphProgressed (progress : ℚ) (current_values : List Nat)
  | MorphCompleted
deriving DecidableEq, Repr

/-- `f64::round`: round half away from zero, on exact rationals. -/
def rustRound (x : ℚ) : ℤ :=
  if 0 ≤ x then ⌊x + 1 / 2⌋ else ⌈x - 1 / 2⌉

/-- `value.round().max(0.0).min(127.0) as u8`: round, clamp to `[0,127]`,
convert to an unsigned integer (exact, since the clamped value is already
in range). -/
def clampRound (x : ℚ) : Nat :=
  (min 127 (max 0 (rustRound x))).toNat

/-- `morph.rs` `MorphEngine::interpolate_values`: for each
`i ∈ [0, param_count)` take `from.get(i).unwrap_or(&0)` and
`to.get(i).unwrap_or(&0)`, interpolate linearly, round, clamp to
`[0,127]` and collect. -/
def interpolate_values (fromVals toVals : List Nat) (progress : ℚ)
    (param_count : Nat) : List Nat :=
  (List.range param_count).map fun i =>
    let from_val : ℚ := (fromVals.getD i 0 : Nat)
    let to_val : ℚ := (toVals.getD i 0 : Nat)
    let value := from_val + (to_val - from_val) * progress
    clampRound value

/-- `morph.rs` `MorphEngine::apply_curve`, over ℝ (the code computes with
`f64` and uses `sqrt`/`cos`; the claims are about the ideal real
functions). -/
noncomputable def apply_curve (progress : ℝ) (curve_type : MorphCurve) : ℝ :=
  match curve_type with
  | MorphCurve.Linear => progress
  | MorphCurve.Exponential => progress * progress
  | MorphCurve.Logarithmic => Real.sqrt progress
  | MorphCurve.SCurve => 0.5 * (1 - Real.cos (Real.pi * progress))

/-- Rust `Vec::get_mut(i)` followed by an in-place update: replace the
element at index `i` by `f` of it, and do nothing when `i` is out of
range. -/
def modifyAt {α : Type} (l : List α) (i : Nat) (f : α → α) : List α :=
  match l, i with
  | [], _ => []
  | a :: rest, 0 => f a :: rest
  | a :: rest, n + 1 => a :: modifyAt rest n f

/-- An empty `Snap` (the `Default`-like filler used only as the `getD`
default behind an index-validity check, so it is never observed). -/
def emptySnap : Snap := ⟨"", "", []⟩

/-- An empty `Bank` (same role as `emptySnap`). -/
def emptyBank : Bank := ⟨"", []⟩

/-- `manager.rs` `handle_pad_pressed`, pads 0–4 with velocity > 0: the
morph duration selected by a modifier pad (`match pad { 0 => 1, 1 => 2,
2 => 4, 3 => 8, 4 => 16, _ => 4 }`). -/
def duration_for_pad (pad : Nat) : Nat :=
  match pad with
  | 0 => 1
  | 1 => 2
  | 2 => 4
  | 3 => 8
  | 4 => 16
  | _ => 4

/-- `midi/manager.rs` `MidiManager::handle_pad_pressed` (lines 363–554).
State changes plus the list of events published on the bus, in order.
The direct MIDI sends (`send_snap_values`, LED writes) go to hardware
ports, not to the bus, and are not part of the returned event list.
`(pad - 8) as usize` on a `u8` is modelled with the release-build
wrapping semantics `(pad + 248) % 256`. -/
def handle_pad_pressed (s : ProjectState) (pad velocity : Nat) :
    ProjectState × List Event :=
  if pad < 5 ∧ 0 < velocity then
    ({ s with active_modifier := some pad,
              morph_duration := duration_for_pad pad }, [])
  else if 5 ≤ pad ∧ pad < 8 ∧ 0 < velocity then
    if pad < s.project.banks.length then
      ({ s with current_bank := pad }, [Event.BankSelected pad])
    else (s, [])
  else
    let snap_id := (pad + 248) % 256
    let active_modifier := s.active_modifier
    let morph_in_progress := s.active_morph.isSome
    let cancel := morph_in_progress ∧ 8 ≤ pad ∧ 0 < velocity
    let s1 := if cancel then { s with active_morph := none } else s
    let evs1 : List Event := if cancel then [Event.MorphCompleted] else []
    match active_modifier with
    | some _ =>
      let bank_id := s1.current_bank
      if s1.project.banks.length ≤ bank_id then (s1, evs1)
      else
        let bank := s1.project.banks.getD bank_id emptyBank
        if bank.snaps.length ≤ snap_id ∨
            (bank.snaps.getD snap_id emptySnap).name = "" then (s1, evs1)
        else
          let from_snap := s1.current_snap
          let duration_bars := s1.morph_duration
          if from_snap = snap_id then (s1, evs1)
          else
            (s1, evs1 ++ [Event.MorphInitiated from_snap snap_id
              duration_bars MorphCurve.Linear true])
    | none =>
      let bank_id := s1.current_bank
      if s1.project.banks.length ≤ bank_id then (s1, evs1)
      else
        let bank := s1.project.banks.getD bank_id emptyBank
        if bank.snaps.length ≤ snap_id ∨
            (bank.snaps.getD snap_id emptySnap).name = "" then (s1, evs1)
        else
          let s2 := { s1 with current_snap := snap_id }
          (s2, evs1 ++ [Event.SnapSelected bank_id snap_id])

/-- `main.rs` `select_snap` (lines 128–210): validate the indices,
update `current_bank` / `current_snap`, and resize the selected snap's
values up to the parameter count with filler 64 when they are shorter
(`snap.values.resize(param_count, 64)` guarded by
`snap.values.len() < param_count`).  The collected `params_to_send`
go out over MIDI, not over the bus; the published bus event is
`SnapSelected`. -/
def select_snap (s : ProjectState) (bank_id snap_id : Nat) :
    Except String (ProjectState × List Event) :=
  if s.project.banks.length ≤ bank_id then
    Except.error "Bank ID out of range"
  else if (s.project.banks.getD bank_id emptyBank).snaps.length ≤ snap_id then
    Except.error "Snap ID out of range"
  else
    Except.ok
      ({ s with
          current_bank := bank_id,
          current_snap := snap_id,
          project := { s.project with
            banks := modifyAt s.project.banks bank_id fun b =>
              { b with snaps := modifyAt b.snaps snap_id fun sn =>
                  if sn.values.length < s.project.parameters.length then
                    { sn with values := sn.values ++ List.replicate (s.project.parameters.length - sn.values.length) 64 }
                  else sn } } },
        [Event.SnapSelected bank_id snap_id])

/-- `morph.rs` `MorphEngine::complete_morph` (lines 313–353): read
`to_snap` and `current_bank`; if there is no active morph, warn and
return (publishing nothing).  Otherwise, in one exclusive-lock critical
section: set `current_snap := to_snap`, overwrite
`banks[current_bank].snaps[to_snap].values` with `final_values`
(`get_mut`, so out-of-range indices are silently skipped), and clear
`active_morph`; then publish `MorphProgressed { 1.0, final_values }`
followed by `MorphCompleted`. -/
def complete_morph (s : ProjectState) (final_values : List Nat) :
    ProjectState × List Event :=
  match s.active_morph with
  | none => (s, [])
  | some m =>
    let to_snap := m.to_snap
    let current_bank := s.current_bank
    let s1 := { s with
      current_snap := to_snap,
      project := { s.project with
        banks := modifyAt s.project.banks current_bank fun b =>
          { b with snaps := modifyAt b.snaps to_snap fun sn =>
              { sn with values := final_values } } },
      active_morph := none }
    (s1, [Event.MorphProgressed 1 final_values, Event.MorphCompleted])

/-- `morph.rs` `send_morph_cc_values` inner loop, recursing over the list
of parameter indices (`for (idx, param) in parameters.iter().enumerate()`):
for each index `idx < values.len()`, if `last_sent[idx] != Some(value)`
record the value and publish `CCValueChanged { param_id: idx, value }`. -/
def sendAux (values : List Nat) :
    List Nat → List (Option Nat) → List (Option Nat) × List Event
  | [], last_sent => (last_sent, [])
  | idx :: rest, last_sent =>
    if idx < values.length then
      let value := values.getD idx 0
      if last_sent.getD idx none ≠ some value then
        let ls1 := modifyAt last_sent idx fun _ => some value
        let out := sendAux values rest ls1
        (out.1, Event.CCValueChanged idx value :: out.2)
      else sendAux values rest last_sent
    else sendAux values rest last_sent

/-- `morph.rs` `send_morph_cc_values` (lines 382–406).  The parameters
list only contributes its indices `0, …, len-1` (the event carries
`param_id = idx`; the CC number is resolved by the outbound sink), so the
embedding takes the parameter count. -/
def send_morph_cc_values (params_len : Nat) (values : List Nat)
    (last_sent : List (Option Nat)) : List (Option Nat) × List Event :=
  sendAux values (List.range params_len) last_sent

/-- `morph.rs` `MorphEngine::run_morph`, snapshot and install step
(lines 135–176): read `banks[bank_id]` (callers validated `bank_id`),
check `from_snap` / `to_snap` against `snaps.len()` (early return on
failure), snapshot `from.values`, `to.values` and the parameter count,
and install `ActiveMorph { progress: 0, current_values: from_values, … }`. -/
def morph_install (s : ProjectState)
    (bank_id from_snap to_snap duration_bars : Nat) :
    Option (ProjectState × List Nat × List Nat × Nat) :=
  match s.project.banks.get? bank_id with
  | none => none
  | some bank =>
    if from_snap < bank.snaps.length then
      if to_snap < bank.snaps.length then
        let fromVals := (bank.snaps.getD from_snap emptySnap).values
        let toVals := (bank.snaps.getD to_snap emptySnap).values
        let param_count := s.project.parameters.length
        let m : ActiveMorph :=
          ⟨from_snap, to_snap, duration_bars, 0, fromVals, toVals, fromVals⟩
        some ({ s with active_morph := some m }, fromVals, toVals, param_count)
      else none
    else none

/-- `morph.rs` `MorphEngine::run_morph`, one non-final loop iteration
(lines 266–295), at raw progress `progress` and curved progress `curved`:
compute `current_values`, update `active_morph.progress` and
`.current_values` *when an active morph is present* (`if let Some(morph)`;
when it is `None` the loop body still proceeds), send the changed CC
values, and publish `MorphProgressed { progress, current_values }`. -/
def morph_tick (fromVals toVals : List Nat) (param_count : Nat)
    (progress curved : ℚ) (s : ProjectState) (last_sent : List (Option Nat)) :
    ProjectState × List (Option Nat) × List Event :=
  let current_values := interpolate_values fromVals toVals curved param_count
  let s1 := match s.active_morph with
    | some m =>
      let m1 := { m with progress := progress, current_values := current_values }
      { s with active_morph := some m1 }
    | none => s
  let out := send_morph_cc_values param_count current_values last_sent
  (s1, out.1, out.2 ++ [Event.MorphProgressed progress current_values])

/-- `morph.rs` `MorphEngine::run_morph`, the `elapsed >= total_duration`
branch (lines 257–263): send the final values and run `complete_morph`. -/
def morph_finalize (toVals : List Nat) (param_count : Nat)
    (s : ProjectState) (last_sent : List (Option Nat)) :
    ProjectState × List (Option Nat) × List Event :=
  let out := send_morph_cc_values param_count toVals last_sent
  let fin := complete_morph s toVals
  (fin.1, out.1, out.2 ++ fin.2)

/-- The `run_morph` loop, folded over the list of (raw, curved) progress
pairs observed at the non-final ticks, ending in the finalize branch. -/
def morph_run_aux (fromVals toVals : List Nat) (param_count : Nat) :
    List (ℚ × ℚ) → ProjectState → List (Option Nat) →
    ProjectState × List (Option Nat) × List Event
  | [], s, last_sent => morph_finalize toVals param_count s last_sent
  | (p, c) :: rest, s, last_sent =>
    let step := morph_tick fromVals toVals param_count p c s last_sent
    let out := morph_run_aux fromVals toVals param_count rest step.1 step.2.1
    (out.1, out.2.1, step.2.2 ++ out.2.2)

/-- A complete (non-aborted) morph run: the dedup cache starts as
`vec![None; param_count]` (line 250), then the tick loop runs to the
finalize branch. -/
def morph_run (fromVals toVals : List Nat) (param_count : Nat)
    (ticks : List (ℚ × ℚ)) (s : ProjectState) : ProjectState × List Event :=
  let out := morph_run_aux fromVals toVals param_count ticks s
    (List.replicate param_count none)
  (out.1, out.2.2)

/-- The values carried by the `CCValueChanged` events for `param_id = i`,
in publication order. -/
def ccValuesFor (evs : List Event) (i : Nat) : List Nat :=
  evs.filterMap fun e =>
    match e with
    | Event.CCValueChanged j v => if j = i then some v else none
    | _ => none

/-- Whether an event is a `CCValueChanged`. -/
def isCC (e : Event) : Bool :=
  match e with
  | Event.CCValueChanged _ _ => true
  | _ => false

/-- Whether an event is a `MorphProgressed`. -/
def isMP (e : Event) : Bool :=
  match e with
  | Event.MorphProgressed _ _ => true
  | _ => false

/-- The number of `MorphProgressed` events in a list. -/
def countMorphProgressed (evs : List Event) : Nat :=
  evs.countP isMP

/-! ### Concrete fixture states used by witnesses and counterexamples -/

/-- A parameter fixture. -/
def paramP : Parameter := ⟨"p0", "cutoff", 10⟩

/-- A populated snap holding the single value 0. -/
def snapA : Snap := ⟨"s0", "low", [0]⟩

/-- A populated snap holding the single value 127. -/
def snapB : Snap := ⟨"s1", "high", [127]⟩

/-- A bank with the two one-value snaps. -/
def bankAB : Bank := ⟨"Bank", [snapA, snapB]⟩

/-- A state whose project has six banks: exercises the bank-row mapping. -/
def sixBankState : ProjectState :=
  ⟨⟨"P", none, "Launchpad X", List.replicate 6 bankAB, [paramP]⟩,
    0, 0, none, 4, none⟩

/-- A state whose selected snap has fewer values (none) than parameters
(one). -/
def shortValuesState : ProjectState :=
  ⟨⟨"P", none, "Launchpad X", [⟨"Bank", [⟨"s0", "", []⟩]⟩], [paramP]⟩,
    0, 0, none, 4, none⟩

/-- A state with zero parameters but snaps holding three values each. -/
def zeroParamState : ProjectState :=
  ⟨⟨"P", none, "Launchpad X",
      [⟨"Bank", [⟨"s0", "", [1, 2, 3]⟩, ⟨"s1", "", [4, 5, 6]⟩]⟩], []⟩,
    0, 0, none, 4, none⟩

/-- A state in the middle of a morph whose from- and to-values agree. -/
def eqMorphState : ProjectState :=
  ⟨⟨"P", none, "Launchpad X",
      [⟨"Bank", [⟨"s0", "", [64]⟩, ⟨"s1", "", [64]⟩]⟩], [paramP]⟩,
    0, 0, none, 4, some ⟨0, 1, 4, 0, [64], [64], [64]⟩⟩

/-- A state whose `active_morph` has been cleared externally (as the pad
handler does on a plain snap press) while the morph task keeps running. -/
def clearedMorphState : ProjectState :=
  ⟨⟨"P", none, "Launchpad X", [bankAB], [paramP]⟩, 0, 0, none, 4, none⟩

/-- A state carrying a running 0 → 127 morph. -/
def runningMorphState : ProjectState :=
  ⟨⟨"P", none, "Launchpad X", [bankAB], [paramP]⟩, 0, 0, none, 4,
    some ⟨0, 1, 4, 0, [0], [127], [0]⟩⟩

/-! ### Helper lemmas about the embedding -/

lemma length_modifyAt {α : Type} (l : List α) (i : Nat) (f : α → α) :
    (modifyAt l i f).length = l.length := by
  induction l generalizing i with
  | nil => rfl
  | cons a rest ih =>
    cases i with
    | zero => rfl
    | succ n => simp [modifyAt, ih]

lemma getD_modifyAt_eq {α : Type} (l : List α) (i : Nat) (f : α → α)
    (d : α) (h : i < l.length) :
    (modifyAt l i f).getD i d = f (l.getD i d) := by
  induction l generalizing i with
  | nil => simp at h
  | cons a rest ih =>
    cases i with
    | zero => rfl
    | succ n =>
      simp only [modifyAt, List.getD_cons_succ]
      exact ih n (by simpa using h)

lemma getD_modifyAt_ne {α : Type} (l : List α) (i j : Nat) (f : α → α)
    (d : α) (h : j ≠ i) :
    (modifyAt l i f).getD j d = l.getD j d := by
  induction l generalizing i j with
  | nil => simp [modifyAt]
  | cons a rest ih =>
    cases i with
    | zero =>
      cases j with
      | zero => exact absurd rfl h
      | succ m => rfl
    | succ n =>
      cases j with
      | zero => rfl
      | succ m =>
        simp only [modifyAt, List.getD_cons_succ]
        exact ih n m (by omega)

lemma rustRound_natCast (v : Nat) : rustRound (v : ℚ) = v := by
  have h0 : (0 : ℚ) ≤ (v : ℚ) := by positivity
  rw [rustRound, if_pos h0, Int.floor_eq_iff]
  constructor
  · push_cast; linarith
  · push_cast; linarith

lemma clampRound_le_127 (x : ℚ) : clampRound x ≤ 127 := by
  have h := min_le_left (127 : ℤ) (max 0 (rustRound x))
  unfold clampRound
  omega

lemma clampRound_natCast (v : Nat) (hv : v ≤ 127) : clampRound (v : ℚ) = v := by
  rw [clampRound, rustRound_natCast]
  have h1 : max (0 : ℤ) v = v := max_eq_right (by positivity)
  rw [h1]
  have h2 : min (127 : ℤ) v = v := min_eq_right (by exact_mod_cast hv)
  rw [h2]
  exact Int.toNat_natCast v

lemma clampRound_eq_round_clamp (x : ℚ) :
    (clampRound x : ℤ) = rustRound (min 127 (max 0 x)) := by
  rcases lt_or_le x 0 with hx | hx
  · have hr : rustRound x = ⌈x - 1 / 2⌉ := if_neg (by linarith)
    have h1 : rustRound x ≤ 0 := by
      rw [hr]
      exact Int.ceil_le.mpr (by push_cast; linarith)
    have hmax : max (0 : ℚ) x = 0 := max_eq_left hx.le
    have hmin : min (127 : ℚ) 0 = 0 := min_eq_right (by norm_num)
    rw [hmax, hmin]
    have hz : rustRound 0 = 0 := by
      rw [rustRound, if_pos le_rfl]
      norm_num
    rw [hz, clampRound]
    omega
  · have hr : rustRound x = ⌊x + 1 / 2⌋ := if_pos hx
    have hge : (0 : ℤ) ≤ rustRound x := by
      rw [hr]
      exact Int.floor_nonneg.mpr (by linarith)
    rcases le_or_lt x 127 with hx2 | hx2
    · have hle : rustRound x ≤ 127 := by
        rw [hr]
        have hlt : ⌊x + 1 / 2⌋ < (128 : ℤ) :=
          Int.floor_lt.mpr (by push_cast; linarith)
        omega
      have hmax : max (0 : ℚ) x = x := max_eq_right hx
      have hmin : min (127 : ℚ) x = x := min_eq_right hx2
      rw [hmax, hmin, clampRound]
      omega
    · have hge127 : (127 : ℤ) ≤ rustRound x := by
        rw [hr]
        apply Int.le_floor.mpr
        push_cast
        linarith
      have hmax : max (0 : ℚ) x = x := max_eq_right hx
      have hmin : min (127 : ℚ) x = 127 := min_eq_left hx2.le
      rw [hmax, hmin, clampRound]
      have h127 : rustRound (127 : ℚ) = 127 := by
        have := rustRound_natCast 127
        push_cast at this
        exact this
      rw [h127]
      omega

lemma interpolate_values_length (fromVals toVals : List Nat) (p : ℚ) (n : Nat) :
    (interpolate_values fromVals toVals p n).length = n := by
  simp [interpolate_values]

lemma interpolate_values_getD (fromVals toVals : List Nat) (p : ℚ)
    (n i : Nat) (h : i < n) :
    (interpolate_values fromVals toVals p n).getD i 0 =
      clampRound ((fromVals.getD i 0 : ℚ) +
        ((toVals.getD i 0 : ℚ) - (fromVals.getD i 0 : ℚ)) * p) := by
  rw [interpolate_values, List.getD_eq_getElem?_getD, List.getElem?_map,
    List.getElem?_range h]
  rfl

lemma sendAux_nil (vs : List Nat) (ls : List (Option Nat)) :
    sendAux vs [] ls = (ls, []) := rfl

lemma sendAux_cons (vs : List Nat) (a : Nat) (L : List Nat)
    (ls : List (Option Nat)) :
    sendAux vs (a :: L) ls =
      if a < vs.length then
        if ls.getD a none ≠ some (vs.getD a 0) then
          ((sendAux vs L (modifyAt ls a fun _ => some (vs.getD a 0))).1,
            Event.CCValueChanged a (vs.getD a 0) ::
              (sendAux vs L (modifyAt ls a fun _ => some (vs.getD a 0))).2)
        else sendAux vs L ls
      else sendAux vs L ls := rfl

lemma sendAux_length (vs : List Nat) (L : List Nat) (ls : List (Option Nat)) :
    (sendAux vs L ls).1.length = ls.length := by
  induction L generalizing ls with
  | nil => rfl
  | cons a L ih =>
    rw [sendAux_cons]
    by_cases h1 : a < vs.length
    · by_cases h2 : ls.getD a none ≠ some (vs.getD a 0)
      · simp only [if_pos h1, if_pos h2]
        rw [ih]
        exact length_modifyAt ls a _
      · simp only [if_pos h1, if_neg h2]
        exact ih ls
    · simp only [if_neg h1]
      exact ih ls

lemma sendAux_getD (vs : List Nat) (L : List Nat) (ls : List (Option Nat))
    (i : Nat) (hL : ∀ j ∈ L, j < ls.length) :
    (sendAux vs L ls).1.getD i none =
      if i ∈ L ∧ i < vs.length then some (vs.getD i 0)
      else ls.getD i none := by
  induction L generalizing ls with
  | nil => simp [sendAux_nil]
  | cons a L ih =>
    have ha : a < ls.length := hL a (by simp)
    rw [sendAux_cons]
    by_cases h1 : a < vs.length
    · by_cases h2 : ls.getD a none ≠ some (vs.getD a 0)
      · simp only [if_pos h1, if_pos h2]
        have hL1 : ∀ j ∈ L, j < (modifyAt ls a fun _ => some (vs.getD a 0)).length := by
          intro j hj
          rw [length_modifyAt]
          exact hL j (by simp [hj])
        rw [ih _ hL1]
        by_cases hi : i ∈ L ∧ i < vs.length
        · rw [if_pos hi, if_pos ⟨by simp [hi.1], hi.2⟩]
        · rw [if_neg hi]
          by_cases hia : i = a
          · subst hia
            rw [getD_modifyAt_eq ls i _ none ha,
              if_pos ⟨by simp, h1⟩]
          · rw [getD_modifyAt_ne ls a i _ none hia]
            have : ¬(i ∈ a :: L ∧ i < vs.length) := by
              intro hcon
              rcases hcon with ⟨hmem, hlen⟩
              rcases List.mem_cons.mp hmem with h | h
              · exact hia h
              · exact hi ⟨h, hlen⟩
            rw [if_neg this]
      · simp only [if_pos h1, if_neg h2]
        push_neg at h2
        rw [ih ls fun j hj => hL j (by simp [hj])]
        by_cases hi : i ∈ L ∧ i < vs.length
        · rw [if_pos hi, if_pos ⟨by simp [hi.1], hi.2⟩]
        · rw [if_neg hi]
          by_cases hia : i = a
          · subst hia
            rw [if_pos ⟨by simp, h1⟩, h2]
          · have : ¬(i ∈ a :: L ∧ i < vs.length) := by
              intro hcon
              rcases hcon with ⟨hmem, hlen⟩
              rcases List.mem_cons.mp hmem with h | h
              · exact hia h
              · exact hi ⟨h, hlen⟩
            rw [if_neg this]
    · simp only [if_neg h1]
      rw [ih ls fun j hj => hL j (by simp [hj])]
      by_cases hi : i ∈ L ∧ i < vs.length
      · rw [if_pos hi, if_pos ⟨by simp [hi.1], hi.2⟩]
      · rw [if_neg hi]
        by_cases hia : i = a
        · subst hia
          have : ¬(i ∈ i :: L ∧ i < vs.length) := fun hcon => h1 hcon.2
          rw [if_neg this]
        · have : ¬(i ∈ a :: L ∧ i < vs.length) := by
            intro hcon
            rcases hcon with ⟨hmem, hlen⟩
            rcases List.mem_cons.mp hmem with h | h
            · exact hia h
            · exact hi ⟨h, hlen⟩
          rw [if_neg this]

lemma ccValuesFor_nil (i : Nat) : ccValuesFor [] i = [] := rfl

lemma ccValuesFor_append (a b : List Event) (i : Nat) :
    ccValuesFor (a ++ b) i = ccValuesFor a i ++ ccValuesFor b i := by
  simp [ccValuesFor]

lemma ccValuesFor_cons_cc (j v : Nat) (evs : List Event) (i : Nat) :
    ccValuesFor (Event.CCValueChanged j v :: evs) i =
      if j = i then v :: ccValuesFor evs i else ccValuesFor evs i := by
  by_cases h : j = i <;> simp [ccValuesFor, List.filterMap_cons, h]

lemma ccValuesFor_cons_not_cc (e : Event) (h : isCC e = false)
    (evs : List Event) (i : Nat) :
    ccValuesFor (e :: evs) i = ccValuesFor evs i := by
  cases e <;> simp_all [ccValuesFor, List.filterMap_cons, isCC]

lemma sendAux_events_isCC (vs : List Nat) (L : List Nat)
    (ls : List (Option Nat)) :
    ∀ e ∈ (sendAux vs L ls).2, isCC e = true := by
  induction L generalizing ls with
  | nil => simp [sendAux_nil]
  | cons a L ih =>
    rw [sendAux_cons]
    by_cases h1 : a < vs.length
    · by_cases h2 : ls.getD a none ≠ some (vs.getD a 0)
      · simp only [if_pos h1, if_pos h2]
        intro e he
        rcases List.mem_cons.mp he with h | h
        · subst h; rfl
        · exact ih _ e h
      · simp only [if_pos h1, if_neg h2]
        exact ih ls
    · simp only [if_neg h1]
      exact ih ls

lemma sendAux_ccValuesFor (vs : List Nat) (L : List Nat)
    (ls : List (Option Nat)) (i : Nat) (hnd : L.Nodup)
    (hL : ∀ j ∈ L, j < ls.length) :
    ccValuesFor (sendAux vs L ls).2 i =
      if i ∈ L ∧ i < vs.length ∧ ls.getD i none ≠ some (vs.getD i 0) then
        [vs.getD i 0]
      else [] := by
  induction L generalizing ls with
  | nil => simp [sendAux_nil, ccValuesFor_nil]
  | cons a L ih =>
    have hnd1 : L.Nodup := (List.nodup_cons.mp hnd).2
    have hna : a ∉ L := (List.nodup_cons.mp hnd).1
    have ha : a < ls.length := hL a (by simp)
    rw [sendAux_cons]
    by_cases h1 : a < vs.length
    · by_cases h2 : ls.getD a none ≠ some (vs.getD a 0)
      · simp only [if_pos h1, if_pos h2]
        rw [ccValuesFor_cons_cc]
        have hL1 : ∀ j ∈ L,
            j < (modifyAt ls a fun _ => some (vs.getD a 0)).length := by
          intro j hj
          rw [length_modifyAt]
          exact hL j (by simp [hj])
        rw [ih _ hnd1 hL1]
        by_cases hia : a = i
        · subst hia
          have hmem : ¬(a ∈ L ∧ a < vs.length ∧
              (modifyAt ls a fun _ => some (vs.getD a 0)).getD a none ≠
                some (vs.getD a 0)) := fun hcon => hna hcon.1
          rw [if_pos rfl, if_neg hmem, if_pos ⟨by simp, h1, h2⟩]
        · rw [if_neg hia, getD_modifyAt_ne ls a i _ none (fun h => hia h.symm)]
          by_cases hi : i ∈ L ∧ i < vs.length ∧ ls.getD i none ≠ some (vs.getD i 0)
          · rw [if_pos hi, if_pos ⟨by simp [hi.1], hi.2⟩]
          · rw [if_neg hi]
            have : ¬(i ∈ a :: L ∧ i < vs.length ∧
                ls.getD i none ≠ some (vs.getD i 0)) := by
              intro hcon
              rcases hcon with ⟨hmem, hrest⟩
              rcases List.mem_cons.mp hmem with h | h
              · exact hia h.symm
              · exact hi ⟨h, hrest⟩
            rw [if_neg this]
      · simp only [if_pos h1, if_neg h2]
        push_neg at h2
        rw [ih ls hnd1 fun j hj => hL j (by simp [hj])]
        by_cases hia : a = i
        · subst hia
          have hmem1 : ¬(a ∈ L ∧ a < vs.length ∧
              ls.getD a none ≠ some (vs.getD a 0)) := fun hcon => hna hcon.1
          have hmem2 : ¬(a ∈ a :: L ∧ a < vs.length ∧
              ls.getD a none ≠ some (vs.getD a 0)) := by
            intro hcon
            exact hcon.2.2 h2
          rw [if_neg hmem1, if_neg hmem2]
        · by_cases hi : i ∈ L ∧ i < vs.length ∧ ls.getD i none ≠ some (vs.getD i 0)
          · rw [if_pos hi, if_pos ⟨by simp [hi.1], hi.2⟩]
          · rw [if_neg hi]
            have : ¬(i ∈ a :: L ∧ i < vs.length ∧
                ls.getD i none ≠ some (vs.getD i 0)) := by
              intro hcon
              rcases hcon with ⟨hmem, hrest⟩
              rcases List.mem_cons.mp hmem with h | h
              · exact hia h.symm
              · exact hi ⟨h, hrest⟩
            rw [if_neg this]
    · simp only [if_neg h1]
      rw [ih ls hnd1 fun j hj => hL j (by simp [hj])]
      by_cases hia : a = i
      · subst hia
        have hmem1 : ¬(a ∈ L ∧ a < vs.length ∧
            ls.getD a none ≠ some (vs.getD a 0)) := fun hcon => hna hcon.1
        have hmem2 : ¬(a ∈ a :: L ∧ a < vs.length ∧
            ls.getD a none ≠ some (vs.getD a 0)) := fun hcon => h1 hcon.2.1
        rw [if_neg hmem1, if_neg hmem2]
      · by_cases hi : i ∈ L ∧ i < vs.length ∧ ls.getD i none ≠ some (vs.getD i 0)
        · rw [if_pos hi, if_pos ⟨by simp [hi.1], hi.2⟩]
        · rw [if_neg hi]
          have : ¬(i ∈ a :: L ∧ i < vs.length ∧
              ls.getD i none ≠ some (vs.getD i 0)) := by
            intro hcon
            rcases hcon with ⟨hmem, hrest⟩
            rcases List.mem_cons.mp hmem with h | h
            · exact hia h.symm
            · exact hi ⟨h, hrest⟩
          rw [if_neg this]

lemma morph_run_aux_nil (f t : List Nat) (n : Nat) (s : ProjectState)
    (ls : List (Option Nat)) :
    morph_run_aux f t n [] s ls = morph_finalize t n s ls := rfl

lemma morph_run_aux_cons (f t : List Nat) (n : Nat) (p c : ℚ)
    (rest : List (ℚ × ℚ)) (s : ProjectState) (ls : List (Option Nat)) :
    morph_run_aux f t n ((p, c) :: rest) s ls =
      ((morph_run_aux f t n rest (morph_tick f t n p c s ls).1
          (morph_tick f t n p c s ls).2.1).1,
        (morph_run_aux f t n rest (morph_tick f t n p c s ls).1
          (morph_tick f t n p c s ls).2.1).2.1,
        (morph_tick f t n p c s ls).2.2 ++
          (morph_run_aux f t n rest (morph_tick f t n p c s ls).1
            (morph_tick f t n p c s ls).2.1).2.2) := rfl

lemma morph_tick_state (f t : List Nat) (n : Nat) (p c : ℚ)
    (s : ProjectState) (ls : List (Option Nat)) (h : s.active_morph = none) :
    (morph_tick f t n p c s ls).1 = s := by
  simp [morph_tick, h]

lemma morph_tick_ls (f t : List Nat) (n : Nat) (p c : ℚ)
    (s : ProjectState) (ls : List (Option Nat)) :
    (morph_tick f t n p c s ls).2.1 =
      (send_morph_cc_values n (interpolate_values f t c n) ls).1 := by
  cases hm : s.active_morph <;> simp [morph_tick, hm]

lemma morph_tick_events (f t : List Nat) (n : Nat) (p c : ℚ)
    (s : ProjectState) (ls : List (Option Nat)) :
    (morph_tick f t n p c s ls).2.2 =
      (send_morph_cc_values n (interpolate_values f t c n) ls).2 ++
        [Event.MorphProgressed p (interpolate_values f t c n)] := by
  cases hm : s.active_morph <;> simp [morph_tick, hm]

lemma ccValuesFor_complete_morph (s : ProjectState) (v : List Nat) (i : Nat) :
    ccValuesFor (complete_morph s v).2 i = [] := by
  cases hm : s.active_morph <;> simp [complete_morph, hm, ccValuesFor]

lemma replicate_getD_none (n i : Nat) :
    (List.replicate n (none : Option Nat)).getD i none = none := by
  induction n generalizing i with
  | zero => simp [List.replicate]
  | succ m ih =>
    cases i with
    | zero => rfl
    | succ j =>
      rw [List.replicate, List.getD_cons_succ]
      exact ih j

lemma run_aux_lastCC (f t : List Nat) (n i : Nat) (hi : i < n)
    (hit : i < t.length) :
    ∀ (ticks : List (ℚ × ℚ)) (s : ProjectState) (ls : List (Option Nat)),
      ls.length = n →
      ((ccValuesFor (morph_run_aux f t n ticks s ls).2.2 i).getLast? =
          some (t.getD i 0) ∨
        (ccValuesFor (morph_run_aux f t n ticks s ls).2.2 i = [] ∧
          ls.getD i none = some (t.getD i 0))) := by
  intro ticks
  induction ticks with
  | nil =>
    intro s ls hls
    rw [morph_run_aux_nil, morph_finalize]
    simp only [ccValuesFor_append, ccValuesFor_complete_morph,
      List.append_nil]
    rw [send_morph_cc_values, sendAux_ccValuesFor t (List.range n) ls i
      (List.nodup_range n) (fun j hj => by
        rw [hls]; exact List.mem_range.mp hj)]
    by_cases hne : ls.getD i none = some (t.getD i 0)
    · rw [if_neg fun hcon => hcon.2.2 hne]
      exact Or.inr ⟨rfl, hne⟩
    · rw [if_pos ⟨List.mem_range.mpr hi, hit, hne⟩]
      exact Or.inl rfl
  | cons pc rest ih =>
    intro s ls hls
    rcases pc with ⟨p, c⟩
    rw [morph_run_aux_cons]
    simp only [ccValuesFor_append]
    have hcurlen : (interpolate_values f t c n).length = n :=
      interpolate_values_length f t c n
    have hls1len : (morph_tick f t n p c s ls).2.1.length = n := by
      rw [morph_tick_ls, send_morph_cc_values, sendAux_length, hls]
    have hls1 : (morph_tick f t n p c s ls).2.1.getD i none =
        some ((interpolate_values f t c n).getD i 0) := by
      rw [morph_tick_ls, send_morph_cc_values, sendAux_getD
        (interpolate_values f t c n) (List.range n) ls i
        (fun j hj => by rw [hls]; exact List.mem_range.mp hj)]
      rw [if_pos ⟨List.mem_range.mpr hi, by omega⟩]
    have htick : ccValuesFor (morph_tick f t n p c s ls).2.2 i =
        ccValuesFor (send_morph_cc_values n (interpolate_values f t c n) ls).2
          i := by
      rw [morph_tick_events, ccValuesFor_append]
      have : ccValuesFor [Event.MorphProgressed p
          (interpolate_values f t c n)] i = [] := rfl
      rw [this, List.append_nil]
    have hsend : ccValuesFor
        (send_morph_cc_values n (interpolate_values f t c n) ls).2 i =
        if i ∈ List.range n ∧ i < (interpolate_values f t c n).length ∧
            ls.getD i none ≠
              some ((interpolate_values f t c n).getD i 0) then
          [(interpolate_values f t c n).getD i 0]
        else [] := by
      rw [send_morph_cc_values]
      exact sendAux_ccValuesFor (interpolate_values f t c n) (List.range n)
        ls i (List.nodup_range n) (fun j hj => by
          rw [hls]; exact List.mem_range.mp hj)
    rcases ih (morph_tick f t n p c s ls).1 (morph_tick f t n p c s ls).2.1
        hls1len with hleft | hright
    · left
      have hnonnil : ccValuesFor (morph_run_aux f t n rest
          (morph_tick f t n p c s ls).1
          (morph_tick f t n p c s ls).2.1).2.2 i ≠ [] := by
        intro hcon
        rw [hcon] at hleft
        simp at hleft
      rw [List.getLast?_append_of_ne_nil _ hnonnil]
      exact hleft
    · rcases hright with ⟨hnil, heq⟩
      have hct : (interpolate_values f t c n).getD i 0 = t.getD i 0 := by
        rw [hls1] at heq
        exact Option.some_injective _ heq

      by_cases hne : ls.getD i none =
          some ((interpolate_values f t c n).getD i 0)
      · right
        rw [htick, hsend, if_neg fun hcon => hcon.2.2 hne, List.nil_append,
          hnil]
        refine ⟨rfl, ?_⟩
        rw [hne, hct]
      · left
        rw [htick, hsend, if_pos ⟨List.mem_range.mpr hi, by omega, hne⟩,
          hnil, hct]
        rfl

lemma interpolate_getD_of_eq (f t : List Nat) (c : ℚ) (n i : Nat)
    (hi : i < n) (heq : f.getD i 0 = t.getD i 0) (hle : f.getD i 0 ≤ 127) :
    (interpolate_values f t c n).getD i 0 = f.getD i 0 := by
  rw [interpolate_values_getD f t c n i hi, ← heq]
  have : ((f.getD i 0 : ℚ) - (f.getD i 0 : ℚ)) = 0 := by ring
  rw [this, zero_mul, add_zero]
  exact clampRound_natCast _ hle

lemma run_aux_ccEq (f t : List Nat) (n i : Nat) (hi : i < n)
    (hif : i < f.length) (hit : i < t.length)
    (heq : f.getD i 0 = t.getD i 0) (hle : f.getD i 0 ≤ 127) :
    ∀ (ticks : List (ℚ × ℚ)) (s : ProjectState) (ls : List (Option Nat)),
      ls.length = n →
      ccValuesFor (morph_run_aux f t n ticks s ls).2.2 i =
        if ls.getD i none = some (f.getD i 0) then [] else [f.getD i 0] := by
  intro ticks
  induction ticks with
  | nil =>
    intro s ls hls
    rw [morph_run_aux_nil, morph_finalize]
    simp only [ccValuesFor_append, ccValuesFor_complete_morph,
      List.append_nil]
    rw [send_morph_cc_values, sendAux_ccValuesFor t (List.range n) ls i
      (List.nodup_range n) (fun j hj => by
        rw [hls]; exact List.mem_range.mp hj), ← heq]
    by_cases hne : ls.getD i none = some (f.getD i 0)
    · rw [if_neg fun hcon => hcon.2.2 hne, if_pos hne]
    · rw [if_pos ⟨List.mem_range.mpr hi, hit, hne⟩, if_neg hne]
  | cons pc rest ih =>
    intro s ls hls
    rcases pc with ⟨p, c⟩
    rw [morph_run_aux_cons]
    simp only [ccValuesFor_append]
    have hcurlen : (interpolate_values f t c n).length = n :=
      interpolate_values_length f t c n
    have hceq : (interpolate_values f t c n).getD i 0 = f.getD i 0 :=
      interpolate_getD_of_eq f t c n i hi heq hle
    have hls1len : (morph_tick f t n p c s ls).2.1.length = n := by
      rw [morph_tick_ls, send_morph_cc_values, sendAux_length, hls]
    have hls1 : (morph_tick f t n p c s ls).2.1.getD i none =
        some (f.getD i 0) := by
      rw [morph_tick_ls, send_morph_cc_values, sendAux_getD
        (interpolate_values f t c n) (List.range n) ls i
        (fun j hj => by rw [hls]; exact List.mem_range.mp hj),
        if_pos ⟨List.mem_range.mpr hi, by omega⟩, hceq]
    have htick : ccValuesFor (morph_tick f t n p c s ls).2.2 i =
        ccValuesFor (send_morph_cc_values n (interpolate_values f t c n) ls).2
          i := by
      rw [morph_tick_events, ccValuesFor_append]
      have : ccValuesFor [Event.MorphProgressed p
          (interpolate_values f t c n)] i = [] := rfl
      rw [this, List.append_nil]
    rw [htick, ih (morph_tick f t n p c s ls).1
      (morph_tick f t n p c s ls).2.1 hls1len, if_pos hls1,
      List.append_nil, send_morph_cc_values,
      sendAux_ccValuesFor (interpolate_values f t c n) (List.range n) ls i
        (List.nodup_range n) (fun j hj => by
          rw [hls]; exact List.mem_range.mp hj), hceq]
    by_cases hne : ls.getD i none = some (f.getD i 0)
    · rw [if_neg fun hcon => hcon.2.2 hne, if_pos hne]
    · rw [if_pos ⟨List.mem_range.mpr hi, by omega, hne⟩, if_neg hne]

lemma countMP_append (a b : List Event) :
    countMorphProgressed (a ++ b) =
      countMorphProgressed a + countMorphProgressed b := by
  simp [countMorphProgressed, List.countP_append]

lemma countMP_sendAux (vs : List Nat) (L : List Nat)
    (ls : List (Option Nat)) :
    countMorphProgressed (sendAux vs L ls).2 = 0 := by
  rw [countMorphProgressed, List.countP_eq_zero]
  intro e he
  have := sendAux_events_isCC vs L ls e he
  cases e <;> simp_all [isCC, isMP]

lemma MC_not_mem_sendAux (vs : List Nat) (L : List Nat)
    (ls : List (Option Nat)) :
    Event.MorphCompleted ∉ (sendAux vs L ls).2 := by
  intro hmem
  have := sendAux_events_isCC vs L ls Event.MorphCompleted hmem
  simp [isCC] at this

lemma complete_morph_of_none (s : ProjectState) (v : List Nat)
    (h : s.active_morph = none) : complete_morph s v = (s, []) := by
  simp [complete_morph, h]

lemma run_aux_cleared (f t : List Nat) (n : Nat) :
    ∀ (ticks : List (ℚ × ℚ)) (s : ProjectState) (ls : List (Option Nat)),
      s.active_morph = none →
      ((morph_run_aux f t n ticks s ls).1 = s ∧
        Event.MorphCompleted ∉ (morph_run_aux f t n ticks s ls).2.2 ∧
        countMorphProgressed (morph_run_aux f t n ticks s ls).2.2 =
          ticks.length) := by
  intro ticks
  induction ticks with
  | nil =>
    intro s ls h
    rw [morph_run_aux_nil, morph_finalize, complete_morph_of_none s t h]
    refine ⟨rfl, ?_, ?_⟩
    · simp only [List.append_nil]
      exact MC_not_mem_sendAux t (List.range n) ls
    · simp only [List.append_nil, List.length_nil]
      exact countMP_sendAux t (List.range n) ls
  | cons pc rest ih =>
    intro s ls h
    rcases pc with ⟨p, c⟩
    rw [morph_run_aux_cons]
    have hst : (morph_tick f t n p c s ls).1 = s := morph_tick_state _ _ _ _ _ _ _ h
    have hih := ih (morph_tick f t n p c s ls).1 (morph_tick f t n p c s ls).2.1
      (by rw [hst]; exact h)
    refine ⟨by rw [hih.1, hst], ?_, ?_⟩
    · intro hmem
      rcases List.mem_append.mp hmem with hmem | hmem
      · rw [morph_tick_events] at hmem
        rcases List.mem_append.mp hmem with hmem | hmem
        · exact MC_not_mem_sendAux _ _ _ hmem
        · simp at hmem
      · exact hih.2.1 hmem
    · rw [countMP_append, morph_tick_events, countMP_append,
        send_morph_cc_values, countMP_sendAux, hih.2.2]
      simp [countMorphProgressed, isMP, List.countP_cons]
      omega

lemma handle_pad_pressed_project (s : ProjectState) (pad velocity : Nat) :
    (handle_pad_pressed s pad velocity).1.project = s.project := by
  rw [handle_pad_pressed]
  by_cases h1 : pad < 5 ∧ 0 < velocity
  · rw [if_pos h1]
  · rw [if_neg h1]
    by_cases h2 : 5 ≤ pad ∧ pad < 8 ∧ 0 < velocity
    · rw [if_pos h2]
      by_cases h3 : pad < s.project.banks.length
      · rw [if_pos h3]
      · rw [if_neg h3]
    · rw [if_neg h2]
      cases hmod : s.active_modifier <;> simp only [hmod] <;>
        repeat' split
      all_goals rfl

/-! ### The claims -/

/-- C8: for every pair of value vectors and every curved progress
`p ∈ [0,1]`, the interpolation computes, at each index `i`,
`v_i = round(clamp(from_i + (to_i - from_i) × p, 0, 127))`; consequently
`interpolate(v, v, p) = v` for every (7-bit) value vector `v` and every
`p`, `interpolate(0, 127, 1) = 127`, and `interpolate(0, 127, 0) = 0`. -/
theorem claim_C8 :
    (∀ (f t : List Nat) (p : ℚ), 0 ≤ p → p ≤ 1 → ∀ (n i : Nat), i < n →
      ((interpolate_values f t p n).getD i 0 : ℤ) =
        rustRound (min 127 (max 0 ((f.getD i 0 : ℚ) +
          ((t.getD i 0 : ℚ) - (f.getD i 0 : ℚ)) * p)))) ∧
    (∀ (v : List Nat) (p : ℚ), (∀ x ∈ v, x ≤ 127) →
      interpolate_values v v p v.length = v) ∧
    interpolate_values [0] [127] 1 1 = [127] ∧
    interpolate_values [0] [127] 0 1 = [0] := by
  refine ⟨?_, ?_, ?_, ?_⟩
  · intro f t p _ _ n i hi
    rw [interpolate_values_getD f t p n i hi]
    exact clampRound_eq_round_clamp _
  · intro v p hv
    refine List.ext_getElem (interpolate_values_length v v p v.length) ?_
    intro i hi1 hi2
    have hi : i < v.length := hi2
    have h1 : (interpolate_values v v p v.length).getD i 0 =
        (interpolate_values v v p v.length)[i] :=
      List.getD_eq_getElem _ 0 hi1
    have h2 : v.getD i 0 = v[i] := List.getD_eq_getElem v 0 hi
    rw [← h1, ← h2]
    exact interpolate_getD_of_eq v v p v.length i hi rfl
      (hv _ (h2 ▸ List.getElem_mem hi))
  · rw [interpolate_values]
    simp only [List.range_succ, List.range_zero, List.nil_append,
      List.map_cons, List.map_nil]
    rw [List.getD, List.getD]
    norm_num
    have hc : ((127 : Nat) : ℚ) = (127 : ℚ) := by norm_num
    rw [← hc]
    exact clampRound_natCast 127 le_rfl
  · rw [interpolate_values]
    simp only [List.range_succ, List.range_zero, List.nil_append,
      List.map_cons, List.map_nil]
    rw [List.getD, List.getD]
    norm_num
    have hc : ((0 : Nat) : ℚ) = (0 : ℚ) := by norm_num
    rw [← hc]
    exact clampRound_natCast 0 (by norm_num)

/-- C8 witness: the formula at the concrete input `from = [3]`,
`to = [9]`, `p = 1/2`, `n = 1`, `i = 0`. -/
theorem claim_C8_witness :
    ((interpolate_values [3] [9] (1 / 2) 1).getD 0 0 : ℤ) =
      rustRound (min 127 (max 0 ((([3].getD 0 0 : Nat) : ℚ) +
        ((([9].getD 0 0 : Nat) : ℚ) - (([3].getD 0 0 : Nat) : ℚ)) * (1 / 2)))) :=
  claim_C8.1 [3] [9] (1 / 2) (by norm_num) (by norm_num) 1 0 (by norm_num)

/-- C9: the curve function is the identity for Linear, `p²` for
Exponential, `√p` for Logarithmic and `0.5 × (1 - cos(π·p))` for S-Curve;
and every curve maps 0 to 0 and 1 to 1. -/
theorem claim_C9 :
    (∀ p : ℝ, apply_curve p MorphCurve.Linear = p ∧
      apply_curve p MorphCurve.Exponential = p ^ 2 ∧
      apply_curve p MorphCurve.Logarithmic = Real.sqrt p ∧
      apply_curve p MorphCurve.SCurve =
        0.5 * (1 - Real.cos (Real.pi * p))) ∧
    (∀ c : MorphCurve, apply_curve 0 c = 0 ∧ apply_curve 1 c = 1) := by
  constructor
  · intro p
    refine ⟨rfl, ?_, rfl, rfl⟩
    rw [apply_curve, pow_two]
  · intro c
    cases c
    · exact ⟨rfl, rfl⟩
    · constructor <;> · rw [apply_curve]; norm_num
    · constructor <;> · rw [apply_curve]; norm_num
    · constructor <;> · rw [apply_curve]; norm_num [Real.cos_pi]

/-- C10: `interpolate_values` is total: for all inputs it returns exactly
`param_count` entries, each at most 127, and an index missing from both
input vectors is interpolated as if the missing value were 0. -/
theorem claim_C10 (f t : List Nat) (p : ℚ) (n : Nat) :
    (interpolate_values f t p n).length = n ∧
    (∀ v ∈ interpolate_values f t p n, v ≤ 127) ∧
    (∀ i, i < n → f.length ≤ i → t.length ≤ i →
      (interpolate_values f t p n).getD i 0 = 0) := by
  refine ⟨interpolate_values_length f t p n, ?_, ?_⟩
  · intro v hv
    rw [interpolate_values, List.mem_map] at hv
    rcases hv with ⟨i, _, hv⟩
    rw [← hv]
    exact clampRound_le_127 _
  · intro i hi hfi hti
    rw [interpolate_values_getD f t p n i hi,
      List.getD_eq_default f 0 hfi, List.getD_eq_default t 0 hti]
    have h0 : (((0 : Nat) : ℚ) + (((0 : Nat) : ℚ) - ((0 : Nat) : ℚ)) * p)
        = ((0 : Nat) : ℚ) := by push_cast; ring
    rw [h0]
    exact clampRound_natCast 0 (by norm_num)

/-- C10 witness: at `from = []`, `to = [5]`, `p = 1/3`, `n = 2`, the
index 1, missing from both vectors, interpolates to 0. -/
theorem claim_C10_witness :
    (interpolate_values [] [5] (1 / 3) 2).getD 1 0 = 0 :=
  (claim_C10 [] [5] (1 / 3) 2).2.2 1 (by norm_num) (by simp) (by simp)

/-- C2: for every morph that runs to completion and every parameter
index `i` (in range of both snapshots) with `from_values[i] ≠
to_values[i]`, the last `CCValueChanged` published for `i` during the
morph carries `to_values[i]`. -/
theorem claim_C2 (f t : List Nat) (n : Nat) (ticks : List (ℚ × ℚ))
    (s : ProjectState) (i : Nat) (hi : i < n) (hif : i < f.length)
    (hit : i < t.length) (hne : f.getD i 0 ≠ t.getD i 0) :
    (ccValuesFor (morph_run f t n ticks s).2 i).getLast? =
      some (t.getD i 0) := by
  have hrep : (List.replicate n (none : Option Nat)).length = n :=
    List.length_replicate n none
  rcases run_aux_lastCC f t n i hi hit ticks s
      (List.replicate n none) hrep with h | ⟨_, hcon⟩
  · exact h
  · rw [replicate_getD_none] at hcon
    exact absurd hcon (by simp)

/-- C2 witness: a zero-tick 0 → 127 morph over one parameter ends with
127 as the last CC value for index 0. -/
theorem claim_C2_witness :
    (ccValuesFor (morph_run [0] [127] 1 [] clearedMorphState).2 0).getLast? =
      some ([127].getD 0 0) :=
  claim_C2 [0] [127] 1 [] clearedMorphState 0 (by norm_num) (by norm_num)
    (by norm_num) (by norm_num)

/-- C3 counterexample: with `from_values = to_values = [64]`, the claim
demands zero `CCValueChanged` events for index 0, but the first tick
publishes one (the dedup cache starts empty). -/
theorem claim_C3_counterexample :
    ([64] : List Nat).getD 0 0 = ([64] : List Nat).getD 0 0 ∧
    ccValuesFor
      (morph_run [64] [64] 1 [((1 : ℚ) / 2, (1 : ℚ) / 2)] eqMorphState).2
      0 ≠ [] := by
  refine ⟨rfl, ?_⟩
  rw [show (morph_run [64] [64] 1 [((1 : ℚ) / 2, (1 : ℚ) / 2)]
        eqMorphState).2 =
      (morph_run_aux [64] [64] 1 [((1 : ℚ) / 2, (1 : ℚ) / 2)] eqMorphState
        (List.replicate 1 none)).2.2 from rfl,
    run_aux_ccEq [64] [64] 1 0 (by norm_num) (by norm_num) (by norm_num)
      rfl (by norm_num) [((1 : ℚ) / 2, (1 : ℚ) / 2)] eqMorphState
      (List.replicate 1 none) (List.length_replicate 1 none),
    replicate_getD_none]
  simp

/-- C3 (amended): for every parameter index `i` in range of both
snapshots with `from_values[i] = to_values[i]` (a 7-bit value), exactly
one `CCValueChanged` event is published for `i` over the whole morph,
carrying the unchanged value `from_values[i]` — not zero events: the
dedup cache starts empty, so the first send always publishes. -/
theorem claim_C3 (f t : List Nat) (n : Nat) (ticks : List (ℚ × ℚ))
    (s : ProjectState) (i : Nat) (hi : i < n) (hif : i < f.length)
    (hit : i < t.length) (heq : f.getD i 0 = t.getD i 0)
    (hle : f.getD i 0 ≤ 127) :
    ccValuesFor (morph_run f t n ticks s).2 i = [f.getD i 0] := by
  rw [show (morph_run f t n ticks s).2 =
      (morph_run_aux f t n ticks s (List.replicate n none)).2.2 from rfl,
    run_aux_ccEq f t n i hi hif hit heq hle ticks s
      (List.replicate n none) (List.length_replicate n none),
    replicate_getD_none]
  simp

/-- C3 witness: the amended claim at the concrete `[64] → [64]` morph. -/
theorem claim_C3_witness :
    ccValuesFor
      (morph_run [64] [64] 1 [((1 : ℚ) / 2, (1 : ℚ) / 2)] eqMorphState).2
      0 = [([64] : List Nat).getD 0 0] :=
  claim_C3 [64] [64] 1 [((1 : ℚ) / 2, (1 : ℚ) / 2)] eqMorphState 0
    (by norm_num) (by norm_num) (by norm_num) rfl (by norm_num)

/-- C7 counterexample: from a state whose `active_morph` was cleared
externally, the running task still publishes `CCValueChanged` and
`MorphProgressed` events on every subsequent tick (the loop body never
checks `active_morph`): two ticks at progress 1/4 and 1/2 publish five
events after the tick that observed `None`, among them a `CCValueChanged`
strictly after the first tick's emissions. -/
theorem claim_C7_counterexample :
    clearedMorphState.active_morph = none ∧
    (morph_run [0] [127] 1 [((1 : ℚ) / 4, (1 : ℚ) / 4),
        ((1 : ℚ) / 2, (1 : ℚ) / 2)] clearedMorphState).2 =
      [Event.CCValueChanged 0 32, Event.MorphProgressed (1 / 4) [32],
        Event.CCValueChanged 0 64, Event.MorphProgressed (1 / 2) [64],
        Event.CCValueChanged 0 127] ∧
    Event.CCValueChanged 0 64 ∈
      ((morph_run [0] [127] 1 [((1 : ℚ) / 4, (1 : ℚ) / 4),
        ((1 : ℚ) / 2, (1 : ℚ) / 2)] clearedMorphState).2.drop 2) := by
  have h1 : rustRound (127 * (4 : ℚ)⁻¹) = 32 := by
    norm_num [rustRound, Int.floor_eq_iff]
  have h2 : rustRound (127 * (2 : ℚ)⁻¹) = 64 := by
    norm_num [rustRound, Int.floor_eq_iff]
  have h32 : (32 : ℤ).toNat = 32 := rfl
  have h64 : (64 : ℤ).toNat = 64 := rfl
  have hrun : (morph_run [0] [127] 1 [((1 : ℚ) / 4, (1 : ℚ) / 4),
      ((1 : ℚ) / 2, (1 : ℚ) / 2)] clearedMorphState).2 =
      [Event.CCValueChanged 0 32, Event.MorphProgressed (1 / 4) [32],
        Event.CCValueChanged 0 64, Event.MorphProgressed (1 / 2) [64],
        Event.CCValueChanged 0 127] := by
    simp [morph_run, morph_run_aux, morph_tick, morph_finalize,
      complete_morph, send_morph_cc_values, sendAux, interpolate_values,
      clampRound, List.range_succ, List.range_zero, modifyAt,
      clearedMorphState, h1, h2, h32, h64]
  refine ⟨rfl, hrun, ?_⟩
  rw [hrun]
  simp

/-- C7 (amended): after `active_morph` is cleared externally, the
running task does *not* stop: every remaining tick still publishes its
`CCValueChanged` events and one `MorphProgressed` (the loop body never
re-checks `active_morph`); what the cleared flag suppresses is only the
finalization, so the task publishes no `MorphCompleted`, no
`MorphProgressed{1.0}`, and leaves the state untouched. -/
theorem claim_C7 :
    (∀ (f t : List Nat) (n : Nat) (ticks : List (ℚ × ℚ))
        (s : ProjectState), s.active_morph = none →
      (morph_run f t n ticks s).1 = s ∧
      Event.MorphCompleted ∉ (morph_run f t n ticks s).2 ∧
      countMorphProgressed (morph_run f t n ticks s).2 = ticks.length) ∧
    (∀ (s : ProjectState) (v : List Nat), s.active_morph = none →
      complete_morph s v = (s, [])) := by
  constructor
  · intro f t n ticks s h
    exact run_aux_cleared f t n ticks s (List.replicate n none) h
  · intro s v h
    exact complete_morph_of_none s v h

/-- C7 witness: the amended claim at the concrete cleared state. -/
theorem claim_C7_witness :
    (morph_run [0] [127] 1 [((1 : ℚ) / 4, (1 : ℚ) / 4)]
        clearedMorphState).1 = clearedMorphState ∧
    complete_morph clearedMorphState [127] = (clearedMorphState, []) :=
  ⟨(claim_C7.1 [0] [127] 1 [((1 : ℚ) / 4, (1 : ℚ) / 4)]
      clearedMorphState rfl).1,
    claim_C7.2 clearedMorphState [127] rfl⟩

/-- C1: when a running morph reaches its total duration, finalization
sets `current_snap := to_snap`, writes the final values into
`banks[current_bank].snaps[to_snap].values`, and clears `active_morph`,
all in the single state transition embedding the exclusive-lock critical
section; afterwards it publishes `MorphProgressed{1.0, to_values}`
followed by `MorphCompleted`, and the whole finalize branch emits only
`CCValueChanged` events before those two. -/
theorem claim_C1 (s : ProjectState) (m : ActiveMorph)
    (hm : s.active_morph = some m) :
    (complete_morph s m.to_values).1.current_snap = m.to_snap ∧
    (complete_morph s m.to_values).1.active_morph = none ∧
    (s.current_bank < s.project.banks.length →
      m.to_snap <
        (s.project.banks.getD s.current_bank emptyBank).snaps.length →
      ((((complete_morph s m.to_values).1.project.banks.getD
          s.current_bank emptyBank).snaps.getD m.to_snap emptySnap).values
        = m.to_values)) ∧
    (complete_morph s m.to_values).2 =
      [Event.MorphProgressed 1 m.to_values, Event.MorphCompleted] ∧
    (∀ (n : Nat) (ls : List (Option Nat)),
      (morph_finalize m.to_values n s ls).2.2 =
        (send_morph_cc_values n m.to_values ls).2 ++
          [Event.MorphProgressed 1 m.to_values, Event.MorphCompleted] ∧
      ∀ e ∈ (send_morph_cc_values n m.to_values ls).2, isCC e = true) := by
  refine ⟨?_, ?_, ?_, ?_, ?_⟩
  · simp [complete_morph, hm]
  · simp [complete_morph, hm]
  · intro hb hs
    simp only [complete_morph, hm]
    rw [getD_modifyAt_eq _ _ _ _ hb]
    simp only
    rw [getD_modifyAt_eq _ _ _ _ hs]
  · simp [complete_morph, hm]
  · intro n ls
    constructor
    · rw [morph_finalize]
      simp only [complete_morph, hm]
    · exact fun e he => sendAux_events_isCC _ _ _ e he

/-- C1 witness: finalizing the concrete running 0 → 127 morph selects
snap 1 and clears the morph. -/
theorem claim_C1_witness :
    (complete_morph runningMorphState
        (ActiveMorph.mk 0 1 4 0 [0] [127] [0]).to_values).1.current_snap =
      (ActiveMorph.mk 0 1 4 0 [0] [127] [0]).to_snap ∧
    (complete_morph runningMorphState
        (ActiveMorph.mk 0 1 4 0 [0] [127] [0]).to_values).1.active_morph =
      none :=
  ⟨(claim_C1 runningMorphState ⟨0, 1, 4, 0, [0], [127], [0]⟩ rfl).1,
    (claim_C1 runningMorphState ⟨0, 1, 4, 0, [0], [127], [0]⟩ rfl).2.1⟩

/-- C4 counterexample: with six banks, pressing bank-row pad 5 selects
bank 5 and publishes `BankSelected 5` — not bank `5 - 5 = 0` as the
claim states (the handler compares and stores the raw pad number). -/
theorem claim_C4_counterexample :
    5 - 5 < sixBankState.project.banks.length ∧
    (handle_pad_pressed sixBankState 5 100).1.current_bank ≠ 5 - 5 ∧
    (handle_pad_pressed sixBankState 5 100).2 ≠
      [Event.BankSelected (5 - 5)] := by
  have hrun : handle_pad_pressed sixBankState 5 100 =
      ({ sixBankState with current_bank := 5 }, [Event.BankSelected 5]) := by
    rw [handle_pad_pressed, if_neg (by norm_num), if_pos (by norm_num),
      if_pos (by simp [sixBankState])]
  refine ⟨by simp [sixBankState], ?_, ?_⟩
  · rw [hrun]; simp
  · rw [hrun]; simp

/-- C4 (amended): for every press (velocity > 0) of a bank-row pad
`p ∈ {5,6,7}`: if `p < len(banks)` then `current_bank` is set to `p`
(the raw pad index, not `p - 5`) and `BankSelected p` is published;
otherwise the model is unchanged and nothing is published. -/
theorem claim_C4 (s : ProjectState) (pad velocity : Nat) (h5 : 5 ≤ pad)
    (h8 : pad < 8) (hv : 0 < velocity) :
    (pad < s.project.banks.length →
      handle_pad_pressed s pad velocity =
        ({ s with current_bank := pad }, [Event.BankSelected pad])) ∧
    (s.project.banks.length ≤ pad →
      handle_pad_pressed s pad velocity = (s, [])) := by
  constructor
  · intro hlt
    rw [handle_pad_pressed, if_neg (by omega), if_pos ⟨h5, h8, hv⟩,
      if_pos hlt]
  · intro hge
    rw [handle_pad_pressed, if_neg (by omega), if_pos ⟨h5, h8, hv⟩,
      if_neg (by omega)]

/-- C4 witness: the amended claim at pad 5 on the six-bank state. -/
theorem claim_C4_witness :
    handle_pad_pressed sixBankState 5 100 =
      ({ sixBankState with current_bank := 5 }, [Event.BankSelected 5]) :=
  (claim_C4 sixBankState 5 100 (by norm_num) (by norm_num)
    (by norm_num)).1 (by simp [sixBankState])

/-- C5 counterexample: a snap-grid pad press selects a snap without
touching its values: on a state with one parameter and an empty value
vector, the press selects snap 0 yet leaves `len(values) = 0 < 1 =
len(parameters)`, contradicting the claimed padding to the parameter
count on every snap selection. -/
theorem claim_C5_counterexample :
    (handle_pad_pressed shortValuesState 8 100).1.current_snap = 0 ∧
    (handle_pad_pressed shortValuesState 8 100).2 =
      [Event.SnapSelected 0 0] ∧
    ((((handle_pad_pressed shortValuesState 8 100).1.project.banks.getD 0
        emptyBank).snaps.getD 0 emptySnap).values).length <
      (handle_pad_pressed shortValuesState 8 100).1.project.parameters.length
    := by
  have hrun : handle_pad_pressed shortValuesState 8 100 =
      ({ shortValuesState with current_snap := 0 },
        [Event.SnapSelected 0 0]) := by
    rw [handle_pad_pressed, if_neg (by norm_num), if_neg (by norm_num)]
    rfl
  rw [hrun]
  refine ⟨rfl, rfl, ?_⟩
  simp [shortValuesState, emptyBank, emptySnap]

/-- C5 (amended): the `select_snap` command pads the selected snap's
values with 64 up to the parameter count when they are shorter (so
afterwards `len ≥ len(parameters)`, with equality only when it was not
longer already — the values are never truncated), while a snap-grid pad
press never modifies any snap's values at all. -/
theorem claim_C5 :
    (∀ (s : ProjectState) (bank_id snap_id : Nat) (s1 : ProjectState)
        (evs : List Event),
      select_snap s bank_id snap_id = Except.ok (s1, evs) →
      ((((s1.project.banks.getD bank_id emptyBank).snaps.getD snap_id
          emptySnap).values =
        (if (((s.project.banks.getD bank_id emptyBank).snaps.getD snap_id
              emptySnap).values).length < s.project.parameters.length then
          (((s.project.banks.getD bank_id emptyBank).snaps.getD snap_id
            emptySnap).values) ++
            List.replicate (s.project.parameters.length -
              ((((s.project.banks.getD bank_id emptyBank).snaps.getD snap_id
                emptySnap)).values).length) 64
        else
          ((s.project.banks.getD bank_id emptyBank).snaps.getD snap_id
            emptySnap).values)) ∧
      s.project.parameters.length ≤
        ((((s1.project.banks.getD bank_id emptyBank).snaps.getD snap_id
          emptySnap)).values).length)) ∧
    (∀ (s : ProjectState) (pad velocity : Nat),
      (handle_pad_pressed s pad velocity).1.project = s.project) := by
  constructor
  · intro s bank_id snap_id s1 evs h
    rw [select_snap] at h
    by_cases hb : s.project.banks.length ≤ bank_id
    · rw [if_pos hb] at h
      cases h
    · rw [if_neg hb] at h
      by_cases hs : (s.project.banks.getD bank_id emptyBank).snaps.length ≤
          snap_id
      · rw [if_pos hs] at h
        cases h
      · rw [if_neg hs] at h
        injection h with h
        rw [Prod.mk.injEq] at h
        rcases h with ⟨h1, _⟩
        rw [← h1]
        simp only
        rw [getD_modifyAt_eq _ _ _ _ (by omega)]
        simp only
        rw [getD_modifyAt_eq _ _ _ _ (by omega)]
        constructor
        · split <;> rfl
        · split
          · simp only [List.length_append, List.length_replicate]
            omega
          · omega
  · exact handle_pad_pressed_project

/-- C5 witness: the amended claim at `select_snap zeroParamState 0 0`
(whose snap is already long enough, so it is returned unchanged) and at
a pad press on `shortValuesState` (whose project is untouched). -/
theorem claim_C5_witness :
    zeroParamState.project.parameters.length ≤
      ((((zeroParamState.project.banks.getD 0 emptyBank).snaps.getD 0
        emptySnap)).values).length ∧
    (handle_pad_pressed shortValuesState 8 100).1.project =
      shortValuesState.project :=
  ⟨(claim_C5.1 zeroParamState 0 0 zeroParamState
      [Event.SnapSelected 0 0] rfl).2,
    claim_C5.2 shortValuesState 8 100⟩

/-- C6 counterexample: with zero parameters and three-value snaps, the
morph engine installs an `ActiveMorph` whose `from_values` has length 3
while the parameter count captured at morph start is 0 — the snapshot
lengths come from the snaps' value vectors, not from the parameter
count. -/
theorem claim_C6_counterexample :
    (morph_install zeroParamState 0 0 1 4).map
        (fun r => (r.1.active_morph.map
          (fun m => m.from_values.length), r.2.2.2)) =
      some (some 3, 0) ∧ (3 : Nat) ≠ 0 := by
  constructor
  · rfl
  · norm_num

/-- C6 (amended): the snapshots are captured once, at morph start:
`from_values`/`to_values` are the source/target snaps' value vectors
(whose lengths need not equal the parameter count), `current_values`
starts as `from_values` and after every tick has exactly the parameter
count captured at morph start; a tick depends only on the captured
snapshot, so a parameter added mid-morph does not change what the
in-flight morph emits. -/
theorem claim_C6 (s : ProjectState)
    (bank_id from_snap to_snap duration_bars : Nat) (s1 : ProjectState)
    (f t : List Nat) (n : Nat)
    (h : morph_install s bank_id from_snap to_snap duration_bars =
      some (s1, f, t, n)) :
    (s1.active_morph =
        some ⟨from_snap, to_snap, duration_bars, 0, f, t, f⟩ ∧
      f = ((s.project.banks.getD bank_id emptyBank).snaps.getD from_snap
        emptySnap).values ∧
      t = ((s.project.banks.getD bank_id emptyBank).snaps.getD to_snap
        emptySnap).values ∧
      n = s.project.parameters.length) ∧
    (∀ (p c : ℚ) (s2 : ProjectState) (ls : List (Option Nat))
        (m : ActiveMorph), s2.active_morph = some m →
      (morph_tick f t n p c s2 ls).1.active_morph =
        some { m with progress := p, current_values := interpolate_values f t c n } ∧
      (interpolate_values f t c n).length = n) ∧
    (∀ (p c : ℚ) (s2 : ProjectState) (ls : List (Option Nat))
        (ps : List Parameter),
      (morph_tick f t n p c { s2 with project := { s2.project with parameters := ps } } ls).2.2 =
        (morph_tick f t n p c s2 ls).2.2) := by
  refine ⟨?_, ?_, ?_⟩
  · rw [morph_install] at h
    cases hb : s.project.banks.get? bank_id with
    | none =>
      rw [hb] at h
      cases h
    | some bank =>
      rw [hb] at h
      dsimp only at h
      by_cases hf : from_snap < bank.snaps.length
      · rw [if_pos hf] at h
        by_cases ht : to_snap < bank.snaps.length
        · rw [if_pos ht] at h
          injection h with h
          rw [Prod.mk.injEq, Prod.mk.injEq, Prod.mk.injEq] at h
          rcases h with ⟨hs1, hf1, ht1, hn1⟩
          have hbank : s.project.banks.getD bank_id emptyBank = bank := by
            rw [List.getD_eq_getElem?_getD, ← List.get?_eq_getElem?, hb]
            rfl
          refine ⟨?_, ?_, ?_, hn1.symm⟩
          · rw [← hs1, ← hf1, ← ht1]
          · rw [hbank, ← hf1]
          · rw [hbank, ← ht1]
        · rw [if_neg ht] at h
          cases h
      · rw [if_neg hf] at h
        cases h
  · intro p c s2 ls m hm
    constructor
    · simp [morph_tick, hm]
    · exact interpolate_values_length f t c n
  · intro p c s2 ls ps
    rw [morph_tick_events, morph_tick_events]

/-- C6 witness: the amended claim at the zero-parameter fixture — the
captured parameter count of the installed morph is the project's
parameter count (here 0, while the snapshots keep their length 3). -/
theorem claim_C6_witness :
    (0 : Nat) = zeroParamState.project.parameters.length :=
  (claim_C6 zeroParamState 0 0 1 4 _ [1, 2, 3] [4, 5, 6] 0 rfl).1.2.2.2

end Snapblaster
